import Mathlib

/-!
# DeCafClassifier: a shallow embedding

The annotator `DeCafClassifier` (src/DeCafClassifier.cpp) loads a list of labels and a
feature matrix, builds a nearest-neighbour index over the matrix and, for every cluster of
a scene, attaches the label of the nearest database row as a detection.

Conventions of the embedding.
* `F` is the carrier of the C++ type float.  The annotator only stores and copies
  values of that type, so it is kept abstract.
* `Img` is the carrier of the colour image (a cv::Mat of pixels).
* Everything the annotator calls but does not define (the file system, HDF5 loading,
  the index search, the feature extractor, the drawing primitives) is a field of `World`.
* A C++ exception, an out-of-range subscript and a loop that never ends are values of
  `Fault`; entry points return `Except Fault _`.
-/

namespace DeCaf

/-! ## Data model -/

/-- Error ids returned by the annotator entry points. -/
inductive TyErrorId where
  | UIMA_ERR_NONE
  | UIMA_ERR_USER_ANNOTATOR_COULD_NOT_INIT
  deriving DecidableEq, Repr

/-- Abnormal ends of a call. -/
inductive Fault where
  /-- A std::vector::resize above max_size (a negative int converted to size_t). -/
  | length_error
  /-- A subscript outside the vector. -/
  | out_of_range
  /-- An exception raised by a library call. -/
  | library (what : String)
  /-- A loop that never ends. -/
  | diverges
  deriving DecidableEq, Repr

/-- The typedef Model: a pair of a name and a feature vector. -/
abbrev Model (F : Type) := String × List F

/-- The line-feed character, the delimiter of std::getline. -/
def newline : Char := Char.ofNat 10

/-- An input file stream: the characters not yet read and two state bits. -/
structure ifstream where
  buf : List Char
  eofbit : Bool
  failbit : Bool
  deriving DecidableEq, Repr

/-- The member function eof(). -/
def ifstream.eof (fs : ifstream) : Bool := fs.eofbit

/-- The member function good(): no state bit is set. -/
def ifstream.good (fs : ifstream) : Bool := !fs.eofbit && !fs.failbit

/-- Character extraction of std::getline: characters are moved to the line until the
delimiter is met (it is consumed and not stored) or the input ends.  The result is the
line, the rest of the input, and whether the end of the input was hit. -/
def extractLine : List Char → List Char × List Char × Bool
  | [] => ([], [], true)
  | c :: cs =>
    if c = newline then ([], cs, false)
    else
      let r := extractLine cs
      (c :: r.1, r.2.1, r.2.2)

/-- The call std::getline(fs, line).  On a stream that is not good the call sets failbit
and leaves the line alone.  Otherwise the line is erased, characters are extracted, eofbit
is set when the input ended and failbit when nothing at all was extracted. -/
def getline (fs : ifstream) (line : String) : ifstream × String :=
  if fs.good then
    let r := extractLine fs.buf
    let extracted := fs.buf.length - r.2.1.length
    ({ buf := r.2.1, eofbit := r.2.2, failbit := extracted == 0 }, String.mk r.1)
  else
    ({ fs with failbit := true }, line)

/-- The loop `while(!fs.eof())` of loadFileList, with a bound on the number of
iterations; `none` means the bound was reached. -/
def loadLoop {F : Type} : Nat → ifstream → String → List (Model F) →
    Option (ifstream × List (Model F))
  | fuel, fs, line, models =>
    if fs.eof then some (fs, models)
    else
      match fuel with
      | 0 => none
      | fuel + 1 =>
        let r := getline fs line
        if r.2.length == 0 then loadLoop fuel r.1 r.2 models
        else loadLoop fuel r.1 r.2 (models ++ [(r.2, [])])

/-! ## Matrices and the neighbour index -/

/-- The type flann::Matrix<float>: a row count, a column count and the buffer of
rows * cols values in row-major order.  Counts are assumed to fit an int. -/
structure flannMatrix (F : Type) where
  rows : Nat
  cols : Nat
  ptr : List F
  deriving DecidableEq, Repr

/-- A cv::Mat of element type CV_32F, row-major. -/
structure cvMat (F : Type) where
  rows : Nat
  cols : Nat
  data : List F
  deriving DecidableEq, Repr

/-- Row i of a matrix. -/
def cvMat.row {F : Type} (m : cvMat F) (i : Nat) : List F :=
  (m.data.drop (i * m.cols)).take m.cols

/-- The expression `cv::Mat(data.rows, data.cols, CV_32F, data.ptr()).clone()`: a matrix
with the same shape that owns a copy of the buffer. -/
def cvMat.ofFlann {F : Type} (m : flannMatrix F) : cvMat F :=
  { rows := m.rows, cols := m.cols, data := m.ptr }

/-- The distance kinds of cvflann::flann_distance_t. -/
inductive flann_distance_t where
  | FLANN_DIST_L2
  | FLANN_DIST_L1
  | FLANN_DIST_MINKOWSKI
  | FLANN_DIST_MAX
  | FLANN_DIST_HIST_INTERSECT
  | FLANN_DIST_HELLINGER
  | FLANN_DIST_CHI_SQUARE
  | FLANN_DIST_KULLBACK_LEIBLER
  | FLANN_DIST_HAMMING
  deriving DecidableEq, Repr

/-- Index parameters; the annotator only uses `cv::flann::KDTreeIndexParams()`, whose
default is four trees. -/
inductive IndexParams where
  | KDTreeIndexParams (trees : Nat)
  deriving DecidableEq, Repr

/-- A built cv::flann::Index: the matrix it was built over, its parameters and its
distance kind. -/
structure cv_flann_Index (F : Type) where
  features : cvMat F
  params : IndexParams
  distType : flann_distance_t
  deriving DecidableEq, Repr

/-- The distance functor named by the private typedef
`typedef flann::Index<flann::ChiSquareDistance<float> > Index;`.  No member, local or
parameter of the class is declared with this typedef: the member `index` has the type
cv::flann::Index. -/
def Index_typedef_distance : flann_distance_t := flann_distance_t.FLANN_DIST_CHI_SQUARE

/-- An axis-aligned rectangle of the image (cv::Rect). -/
structure Rect where
  x : Int
  y : Int
  width : Int
  height : Int
  deriving DecidableEq, Repr

/-! ## What the annotator calls but does not define -/

/-- The collaborators of the annotator. -/
structure World (F Img : Type) where
  /-- The call ros::package::getPath. -/
  getPath : String → String
  /-- The call boost::filesystem::exists. -/
  fileExists : String → Bool
  /-- Opening a text file for reading: its characters, or `none` when the stream
  does not open. -/
  openText : String → Option (List Char)
  /-- The call flann::load_from_file(matrix, file, dataset). -/
  load_from_file : String → String → Except Fault (flannMatrix F)
  /-- The default value of the third parameter `distType` of cv::flann::Index::build. -/
  buildDefaultDistType : flann_distance_t
  /-- The call cv::flann::Index::knnSearch(query, indices, dists, knn, params): from the
  index, the query, the two output vectors as passed in, knn and the number of checks,
  the contents of the two output vectors after the call. -/
  knnSearch : Option (cv_flann_Index F) → List F → List Int → List F → Int → Nat →
    Except Fault (List Int × List F)
  /-- The call CaffeProxy::extractFeature. -/
  extractFeature : Img → List F
  /-- The view `color(roi)` of an image; regions are assumed to lie inside the image. -/
  crop : Img → Rect → Img
  /-- The call cv::rectangle in red. -/
  rectangle : Img → Rect → Img
  /-- The call cv::getTextSize: width and height of a rendered label. -/
  getTextSize : String → Int × Int
  /-- The call cv::putText at a point. -/
  putText : Img → String → Int × Int → Img

/-- The four configuration values read from the AnnotatorContext. -/
structure AnnotatorContext where
  DeCafH5File : String
  DeCafListFile : String
  DeCafKDTreeIndices : String
  DeCafKNeighbors : Int
  deriving DecidableEq, Repr

/-- The data members of the class DeCafClassifier (the point cloud, only shown in the
visualizer, is left out).  The member `index` is `none` until it is built. -/
structure DeCafClassifier (F Img : Type) where
  packagePath : String
  h5_file : String
  list_file : String
  kdtree_file : String
  models : List (Model F)
  data : cvMat F
  index : Option (cv_flann_Index F)
  k : Int
  color : Img

/-! ## Loading -/

/-- The member function loadFileList: `false` when the file does not open; otherwise
one model with an empty feature vector is pushed for every non-empty line, and the
result is `true`. -/
def loadFileList {F Img : Type} (w : World F Img) (models : List (Model F))
    (filename : String) : Except Fault (Bool × List (Model F)) :=
  match w.openText filename with
  | none => .ok (false, models)
  | some content =>
    match loadLoop (content.length + 1) { buf := content, eofbit := false, failbit := false }
        "" models with
    | none => .error Fault.diverges
    | some r => .ok (true, r.2)

/-- The call `index.build(this->data, cv::flann::KDTreeIndexParams())`: two arguments, so
the distance kind is the default of the library. -/
def cv_flann_Index.build {F Img : Type} (w : World F Img) (features : cvMat F)
    (params : IndexParams) : cv_flann_Index F :=
  { features := features, params := params, distType := w.buildDefaultDistType }

/-- The member function initialize; it is named initialise because the other spelling
is a keyword of Lean. -/
def initialise {F Img : Type} (w : World F Img) (ctx : AnnotatorContext)
    (self : DeCafClassifier F Img) : Except Fault (TyErrorId × DeCafClassifier F Img) :=
  let self := { self with
    packagePath := w.getPath "rs_addons" ++ "/"
    h5_file := ctx.DeCafH5File
    list_file := ctx.DeCafListFile
    kdtree_file := ctx.DeCafKDTreeIndices
    k := ctx.DeCafKNeighbors }
  if !w.fileExists (self.packagePath ++ self.h5_file)
      || !w.fileExists (self.packagePath ++ self.list_file)
      || !w.fileExists (self.packagePath ++ self.kdtree_file) then
    .ok (TyErrorId.UIMA_ERR_USER_ANNOTATOR_COULD_NOT_INIT, self)
  else
    match loadFileList w self.models (self.packagePath ++ self.list_file) with
    | .error e => .error e
    | .ok loaded =>
      match w.load_from_file (self.packagePath ++ self.h5_file) "training_data" with
      | .error e => .error e
      | .ok data =>
        let mat := cvMat.ofFlann data
        .ok (TyErrorId.UIMA_ERR_NONE,
          { self with
            models := loaded.2
            data := mat
            index := some (cv_flann_Index.build w mat (IndexParams.KDTreeIndexParams 4)) })

/-! ## Searching and classifying -/

/-- The call v.resize(k) with an int k: a negative k converts to a size above max_size
and throws; otherwise the vector is cut or filled with zeros to k elements. -/
def resize {α : Type} (zero : α) (v : List α) (k : Int) : Except Fault (List α) :=
  if k < 0 then .error Fault.length_error
  else .ok (v.take k.toNat ++ List.replicate (k.toNat - v.length) zero)

/-- The subscript v[i] with an int i: outside the vector it has no defined result. -/
def vecAt {α : Type} (v : List α) (i : Int) : Except Fault α :=
  if i < 0 then .error Fault.out_of_range
  else
    match v[i.toNat]? with
    | some x => .ok x
    | none => .error Fault.out_of_range

/-- The member function nearestKSearch: both output vectors are resized to k, then the
index is searched with 512 checks. -/
def nearestKSearch {F Img : Type} [Zero F] (w : World F Img)
    (index : Option (cv_flann_Index F)) (model : Model F) (k : Int)
    (indices : List Int) (distances : List F) : Except Fault (List Int × List F) :=
  match resize 0 indices k with
  | .error e => .error e
  | .ok indices =>
    match resize 0 distances k with
    | .error e => .error e
    | .ok distances => w.knnSearch index model.2 indices distances k 512

/-- A detection annotation: the three features the annotator sets. -/
structure Detection (F : Type) where
  name : String
  source : String
  confidence : F
  deriving DecidableEq, Repr

/-- A cluster of the scene: its points when that feature is set, its image region and
its annotations. -/
structure Cluster (F : Type) where
  points : Option (List Nat)
  rois : Rect
  annotations : List (Detection F)
  deriving DecidableEq, Repr

/-- The member function drawCluster: a rectangle and the label above it are drawn into
the colour image. -/
def drawCluster {F Img : Type} (w : World F Img) (color : Img) (roi : Rect)
    (label : String) : Img :=
  let offset : Int := 7
  let textSize := w.getTextSize label
  w.putText (w.rectangle color roi) label
    (roi.x + (roi.width - textSize.1).tdiv 2, roi.y - offset - textSize.2)

/-- The logging loop `for(int j = 0; j < k; ++j)`: for every j it reads k_indices[j],
the model at that index and k_distances[j]. -/
def logNeighbors {F : Type} (models : List (Model F)) (k_indices : List Int)
    (k_distances : List F) : List Nat → Except Fault Unit
  | [] => .ok ()
  | j :: js =>
    match vecAt k_indices j with
    | .error e => .error e
    | .ok idx =>
      match vecAt models idx with
      | .error e => .error e
      | .ok _ =>
        match vecAt k_distances j with
        | .error e => .error e
        | .ok _ => logNeighbors models k_indices k_distances js

/-- The body of the loop of processWithLock for cluster number i that has points: the
new cluster, the new colour image and the detection that was created. -/
def processCluster {F Img : Type} [Zero F] (w : World F Img) (self : DeCafClassifier F Img)
    (i : Nat) (cluster : Cluster F) (color : Img) :
    Except Fault (Cluster F × Img × Detection F) :=
  let name := "cluster" ++ toString i
  let roi := cluster.rois
  let clusterImg := w.crop color roi
  let feature : Model F := (name, w.extractFeature clusterImg)
  match nearestKSearch w self.index feature self.k [] [] with
  | .error e => .error e
  | .ok found =>
    let k_indices := found.1
    let k_distances := found.2
    match logNeighbors self.models k_indices k_distances (List.range self.k.toNat) with
    | .error e => .error e
    | .ok _ =>
      match vecAt k_indices 0 with
      | .error e => .error e
      | .ok i0 =>
        match vecAt self.models i0 with
        | .error e => .error e
        | .ok m =>
          match vecAt k_distances 0 with
          | .error e => .error e
          | .ok d0 =>
            let detection : Detection F :=
              { name := m.1, source := "DeCafClassifier", confidence := d0 }
            .ok ({ cluster with annotations := cluster.annotations ++ [detection] },
              drawCluster w color cluster.rois m.1, detection)

/-- The loop `for(int i = 0; i < clusters.size(); ++i)` of processWithLock, from
cluster number i on: the clusters after the loop, the colour image after the loop and
the detections created, in order. -/
def processLoop {F Img : Type} [Zero F] (w : World F Img) (self : DeCafClassifier F Img) :
    Nat → List (Cluster F) → Img → Except Fault (List (Cluster F) × Img × List (Detection F))
  | _, [], color => .ok ([], color, [])
  | i, cluster :: rest, color =>
    if cluster.points.isNone then
      match processLoop w self (i + 1) rest color with
      | .error e => .error e
      | .ok r => .ok (cluster :: r.1, r.2.1, r.2.2)
    else
      match processCluster w self i cluster color with
      | .error e => .error e
      | .ok done =>
        match processLoop w self (i + 1) rest done.2.1 with
        | .error e => .error e
        | .ok r => .ok (done.1 :: r.1, r.2.1, done.2.2 :: r.2.2)

/-- What processWithLock leaves behind: its return value, the annotator, the clusters of
the scene and the detections created in the CAS. -/
structure Processed (F Img : Type) where
  result : TyErrorId
  self : DeCafClassifier F Img
  clusters : List (Cluster F)
  created : List (Detection F)

/-- The member function processWithLock, given the colour image and the clusters that
the CAS holds. -/
def processWithLock {F Img : Type} [Zero F] (w : World F Img) (self : DeCafClassifier F Img)
    (casColor : Img) (clusters : List (Cluster F)) : Except Fault (Processed F Img) :=
  match processLoop w { self with color := casColor } 0 clusters casColor with
  | .error e => .error e
  | .ok r =>
    .ok { result := TyErrorId.UIMA_ERR_NONE
          self := { self with color := r.2.1 }
          clusters := r.1
          created := r.2.2 }

/-! ## The search of the specification -/

/-- Modelled from the spec: the search of NeighborIndex (section 4.2), which the
annotator delegates to cv::flann::Index::knnSearch, a library that is not part of the
sources.  The query length must equal D, else DimensionMismatch; k must satisfy
1 ≤ k ≤ N, else InvalidK; the result is the k rows with the smallest distance to the
query under the metric, ascending, ties kept in row order.  A search before the index is
built is NotReady. -/
def knnSearchSpec {F : Type} [LinearOrder F] (metric : List F → List F → F)
    (index : Option (cv_flann_Index F)) (query : List F) (_indices : List Int)
    (_dists : List F) (k : Int) (_checks : Nat) : Except Fault (List Int × List F) :=
  match index with
  | none => .error (Fault.library "NotReady")
  | some idx =>
    if query.length ≠ idx.features.cols then .error (Fault.library "DimensionMismatch")
    else if k < 1 ∨ (idx.features.rows : Int) < k then .error (Fault.library "InvalidK")
    else
      let ranked := List.insertionSort (fun a b : Int × F => a.2 ≤ b.2)
        ((List.range idx.features.rows).map
          (fun i : Nat => (Int.ofNat i, metric query (idx.features.row i))))
      let top := ranked.take k.toNat
      .ok (top.map Prod.fst, top.map Prod.snd)

/-! ## Label sources as sequences of lines -/

/-- The characters of a label source whose every line ends with a line feed. -/
def terminatedText : List String → List Char
  | [] => []
  | l :: ls => l.data ++ newline :: terminatedText ls

/-- The characters of a label source whose lines are separated by line feeds, the last
line having none. -/
def separatedText : List String → List Char
  | [] => []
  | [l] => l.data
  | l :: l2 :: ls => l.data ++ newline :: separatedText (l2 :: ls)

/-- The non-blank lines of a label source, in order. -/
def nonBlank (ls : List String) : List String :=
  ls.filter (fun l => !(l.length == 0))

/-- The models that one label per line gives: the label and no features. -/
def labelModels (F : Type) (ls : List String) : List (Model F) :=
  ls.map (fun l => (l, []))

/-! ## A small concrete world

Values of the carrier are integers, an image is a list of integers whose first value
is the one feature extracted from it, drawing leaves the image alone, and the search is
the one of the specification under the squared Euclidean distance. -/

/-- Squared Euclidean distance on integer vectors. -/
def sqDist (a b : List Int) : Int :=
  (List.zipWith (fun x y => (x - y) * (x - y)) a b).sum

/-- A world with the package path "pkg", the given existing paths, one label file
"pkg/list.txt" with the given characters and one matrix file "pkg/data.h5" whose dataset
"training_data" is the given matrix. -/
def demoWorld (present : List String) (listText : List Char) (matrix : flannMatrix Int) :
    World Int (List Int) :=
  { getPath := fun _ => "pkg"
    fileExists := fun path => decide (path ∈ present)
    openText := fun path => if path = "pkg/list.txt" then some listText else none
    load_from_file := fun path dataset =>
      if path = "pkg/data.h5" ∧ dataset = "training_data" then .ok matrix
      else .error (Fault.library "H5")
    buildDefaultDistType := flann_distance_t.FLANN_DIST_L2
    knnSearch := knnSearchSpec sqDist
    extractFeature := fun img => [img.headD 0]
    crop := fun img _ => img
    rectangle := fun img _ => img
    getTextSize := fun label => (Int.ofNat label.length, 1)
    putText := fun img _ _ => img }

/-- The configuration that names the three files of the small world. -/
def demoCtx (k : Int) : AnnotatorContext :=
  { DeCafH5File := "data.h5"
    DeCafListFile := "list.txt"
    DeCafKDTreeIndices := "kdtree.idx"
    DeCafKNeighbors := k }

/-- The three paths of the small world. -/
def demoPaths : List String := ["pkg/data.h5", "pkg/list.txt", "pkg/kdtree.idx"]

/-- A freshly constructed annotator: no model, an empty matrix, no index. -/
def freshAnnotator : DeCafClassifier Int (List Int) :=
  { packagePath := ""
    h5_file := ""
    list_file := ""
    kdtree_file := ""
    models := []
    data := { rows := 0, cols := 0, data := [] }
    index := none
    k := 0
    color := [] }

/-- The small world with the labels apple, banana, cherry and the rows [10], [20], [30]. -/
def fruitWorld : World Int (List Int) :=
  demoWorld demoPaths (terminatedText ["apple", "banana", "cherry"])
    { rows := 3, cols := 1, ptr := [10, 20, 30] }

/-- The annotator after initialize in that world with k = 2. -/
def fruitAnnotator : DeCafClassifier Int (List Int) :=
  { packagePath := "pkg/"
    h5_file := "data.h5"
    list_file := "list.txt"
    kdtree_file := "kdtree.idx"
    models := [("apple", []), ("banana", []), ("cherry", [])]
    data := { rows := 3, cols := 1, data := [10, 20, 30] }
    index := some { features := { rows := 3, cols := 1, data := [10, 20, 30] }
                    params := IndexParams.KDTreeIndexParams 4
                    distType := flann_distance_t.FLANN_DIST_L2 }
    k := 2
    color := [] }

/-- Three clusters: the first and the third have points, the second has none. -/
def fruitClusters : List (Cluster Int) :=
  [{ points := some [0, 1], rois := { x := 0, y := 0, width := 2, height := 2 },
     annotations := [] },
   { points := none, rois := { x := 2, y := 0, width := 2, height := 2 },
     annotations := [] },
   { points := some [2], rois := { x := 4, y := 0, width := 2, height := 2 },
     annotations := [{ name := "old", source := "other", confidence := 0 }] }]

/-! ## Conditions on the search -/

/-- The search only returns row indices of the matrix the index was built over. -/
def SearchInRange {F Img : Type} (w : World F Img) : Prop :=
  ∀ (idx : cv_flann_Index F) (query : List F) (indices : List Int) (dists : List F)
    (k : Int) (checks : Nat) (found : List Int × List F),
    w.knnSearch (some idx) query indices dists k checks = .ok found →
    ∀ i ∈ found.1, 0 ≤ i ∧ i < (idx.features.rows : Int)

/-- Every subscript of the loop body is inside its vector: k is at least one and, for
every image region, the search returns and, for every j below k, k_indices[j], the model
at that index and k_distances[j] exist. -/
def LookupsInRange {F Img : Type} [Zero F] (w : World F Img) (self : DeCafClassifier F Img) :
    Prop :=
  1 ≤ self.k ∧
  ∀ (name : String) (img : Img) (roi : Rect),
    ∃ found, nearestKSearch w self.index (name, w.extractFeature (w.crop img roi)) self.k
        [] [] = .ok found ∧
      ∀ j, j < self.k.toNat →
        ∃ i m d, vecAt found.1 (Int.ofNat j) = .ok i ∧ vecAt self.models i = .ok m ∧
          vecAt found.2 (Int.ofNat j) = .ok d

/-! ## Lemmas on reading lines -/

theorem extractLine_line (l rest : List Char) (h : newline ∉ l) :
    extractLine (l ++ newline :: rest) = (l, rest, false) := by
  induction l with
  | nil => simp [extractLine]
  | cons c cs ih =>
    have hc : c ≠ newline := fun e => h (by simp [e])
    have hcs : newline ∉ cs := fun e => h (by simp [e])
    simp [extractLine, hc, ih hcs]

theorem extractLine_last (l : List Char) (h : newline ∉ l) :
    extractLine l = (l, [], true) := by
  induction l with
  | nil => simp [extractLine]
  | cons c cs ih =>
    have hc : c ≠ newline := fun e => h (by simp [e])
    have hcs : newline ∉ cs := fun e => h (by simp [e])
    simp [extractLine, hc, ih hcs]

theorem nonBlank_cons (l : String) (ls : List String) :
    nonBlank (l :: ls) = if l.length = 0 then nonBlank ls else l :: nonBlank ls := by
  by_cases h : l.length = 0 <;> simp [nonBlank, List.filter_cons, h]

theorem loadLoop_eof {F : Type} (fuel : Nat) (buf : List Char) (fb : Bool) (line : String)
    (models : List (Model F)) :
    loadLoop fuel { buf := buf, eofbit := true, failbit := fb } line models =
      some ({ buf := buf, eofbit := true, failbit := fb }, models) := by
  unfold loadLoop
  simp [ifstream.eof]

/-- One iteration on a good stream whose next line ends with a line feed. -/
theorem loadLoop_line {F : Type} (fuel : Nat) (l : String) (rest : List Char)
    (h : newline ∉ l.data) (line : String) (models : List (Model F)) :
    loadLoop (fuel + 1) { buf := l.data ++ newline :: rest, eofbit := false, failbit := false }
        line models =
      loadLoop fuel { buf := rest, eofbit := false, failbit := false } l
        (if l.length = 0 then models else models ++ [(l, [])]) := by
  have hb : ∀ a b : Nat, (a + (b + 1) - b == 0) = false := by
    intro a b
    simp only [beq_eq_false_iff_ne, ne_eq]
    omega
  have hl : String.length (String.mk l.data) = l.length := rfl
  have he : String.mk l.data = l := rfl
  conv_lhs => unfold loadLoop
  simp only [ifstream.eof, getline, ifstream.good, extractLine_line _ _ h]
  by_cases h0 : l.length = 0 <;> simp [h0, hb, hl, he]

/-- The last iteration on a good stream whose remaining characters hold no line feed. -/
theorem loadLoop_last {F : Type} (fuel : Nat) (l : String) (h : newline ∉ l.data)
    (line : String) (models : List (Model F)) :
    loadLoop (fuel + 1) { buf := l.data, eofbit := false, failbit := false } line models =
      some ({ buf := [], eofbit := true, failbit := l.length == 0 },
        if l.length = 0 then models else models ++ [(l, [])]) := by
  have hl : String.length (String.mk l.data) = l.length := rfl
  have he : String.mk l.data = l := rfl
  have hd : l.data.length = l.length := rfl
  conv_lhs => unfold loadLoop
  simp only [ifstream.eof, getline, ifstream.good, extractLine_last _ h]
  by_cases h0 : l.length = 0 <;> simp [h0, hl, he, hd, loadLoop_eof]

theorem length_le_terminatedText (ls : List String) :
    ls.length ≤ (terminatedText ls).length := by
  induction ls with
  | nil => simp
  | cons l ls ih => simp only [terminatedText, List.length_append, List.length_cons]; omega

theorem length_le_separatedText (ls : List String) :
    ls.length ≤ (separatedText ls).length + 1 := by
  induction ls with
  | nil => simp
  | cons l ls ih =>
    cases ls with
    | nil => simp
    | cons l2 ls =>
      simp only [separatedText, List.length_append, List.length_cons] at ih ⊢; omega

theorem labelModels_step (F : Type) (l : String) (ls : List String) (models : List (Model F)) :
    (if l.length = 0 then models else models ++ [(l, [])]) ++ labelModels F (nonBlank ls) =
      models ++ labelModels F (nonBlank (l :: ls)) := by
  rw [nonBlank_cons]
  by_cases h0 : l.length = 0 <;> simp [h0, labelModels]

/-- Reading a source whose lines all end with a line feed pushes the non-blank lines. -/
theorem loadLoop_terminated {F : Type} (ls : List String) (h : ∀ l ∈ ls, newline ∉ l.data) :
    ∀ (fuel : Nat) (line : String) (models : List (Model F)), ls.length + 1 ≤ fuel →
      ∃ fs, loadLoop fuel { buf := terminatedText ls, eofbit := false, failbit := false }
        line models = some (fs, models ++ labelModels F (nonBlank ls)) := by
  induction ls with
  | nil =>
    intro fuel line models hf
    obtain ⟨f, rfl⟩ : ∃ f, fuel = f + 1 := ⟨fuel - 1, by omega⟩
    have := loadLoop_last f "" (by simp) line models
    refine ⟨{ buf := [], eofbit := true, failbit := "".length == 0 }, ?_⟩
    simpa [terminatedText, nonBlank, labelModels] using this
  | cons l ls ih =>
    intro fuel line models hf
    obtain ⟨f, rfl⟩ : ∃ f, fuel = f + 1 := ⟨fuel - 1, by simp at hf; omega⟩
    have hl : newline ∉ l.data := h l (by simp)
    have hls : ∀ x ∈ ls, newline ∉ x.data := fun x hx => h x (by simp [hx])
    obtain ⟨fs, hfs⟩ := ih hls f l (if l.length = 0 then models else models ++ [(l, [])])
      (by simp at hf; omega)
    refine ⟨fs, ?_⟩
    rw [terminatedText, loadLoop_line f l _ hl, hfs, labelModels_step]

/-- Reading a source whose lines are separated by line feeds pushes the non-blank lines. -/
theorem loadLoop_separated {F : Type} (ls : List String) (h : ∀ l ∈ ls, newline ∉ l.data) :
    ∀ (fuel : Nat) (line : String) (models : List (Model F)), 1 ≤ fuel → ls.length ≤ fuel →
      ∃ fs, loadLoop fuel { buf := separatedText ls, eofbit := false, failbit := false }
        line models = some (fs, models ++ labelModels F (nonBlank ls)) := by
  induction ls with
  | nil =>
    intro fuel line models hf _
    obtain ⟨f, rfl⟩ : ∃ f, fuel = f + 1 := ⟨fuel - 1, by omega⟩
    have := loadLoop_last f "" (by simp) line models
    refine ⟨{ buf := [], eofbit := true, failbit := "".length == 0 }, ?_⟩
    simpa [separatedText, nonBlank, labelModels] using this
  | cons l ls ih =>
    intro fuel line models hf hlen
    obtain ⟨f, rfl⟩ : ∃ f, fuel = f + 1 := ⟨fuel - 1, by omega⟩
    have hl : newline ∉ l.data := h l (by simp)
    have hls : ∀ x ∈ ls, newline ∉ x.data := fun x hx => h x (by simp [hx])
    cases ls with
    | nil =>
      refine ⟨{ buf := [], eofbit := true, failbit := l.length == 0 }, ?_⟩
      rw [separatedText, loadLoop_last f l hl, ← labelModels_step F l [] models]
      simp [nonBlank, labelModels]
    | cons l2 ls =>
      obtain ⟨fs, hfs⟩ := ih hls f l (if l.length = 0 then models else models ++ [(l, [])])
        (by simp at hlen; omega) (by simp at hlen ⊢; omega)
      refine ⟨fs, ?_⟩
      rw [separatedText, loadLoop_line f l _ hl, hfs, labelModels_step]

theorem nonBlank_eq_filter (ls : List String) :
    nonBlank ls = ls.filter (fun l => decide (l ≠ "")) := by
  unfold nonBlank
  congr 1
  funext l
  cases l with
  | mk data => cases data <;> simp [String.length, String.ext_iff]

/-! ## Loading never fails to end -/

theorem extractLine_progress (cs : List Char) :
    (extractLine cs).2.1.length ≤ cs.length ∧
      ((extractLine cs).2.2 = true ∨ (extractLine cs).2.1.length < cs.length) := by
  induction cs with
  | nil => simp [extractLine]
  | cons c cs ih =>
    by_cases hc : c = newline
    · simp [extractLine, hc]
    · simp only [extractLine, hc, if_false, List.length_cons]
      rcases ih with ⟨h1, h2 | h2⟩
      · exact ⟨by omega, Or.inl h2⟩
      · exact ⟨by omega, Or.inr (by omega)⟩

/-- One iteration of the loop on a good stream. -/
theorem loadLoop_step {F : Type} (fuel : Nat) (content : List Char) (line : String)
    (models : List (Model F)) :
    loadLoop (fuel + 1) { buf := content, eofbit := false, failbit := false } line models =
      loadLoop fuel
        { buf := (extractLine content).2.1, eofbit := (extractLine content).2.2,
          failbit := content.length - (extractLine content).2.1.length == 0 }
        (String.mk (extractLine content).1)
        (if (String.mk (extractLine content).1).length = 0 then models
          else models ++ [(String.mk (extractLine content).1, [])]) := by
  conv_lhs => unfold loadLoop
  simp only [ifstream.eof, getline, ifstream.good, Bool.false_eq_true, if_false,
    Bool.not_false, Bool.and_self, if_true]
  by_cases h0 : (extractLine content).1 = [] <;> simp [h0]

/-- On every file content the loop of loadFileList ends within one iteration per
character plus one; it appends models with a non-empty label and no features. -/
theorem loadLoop_total {F : Type} :
    ∀ (fuel : Nat) (content : List Char) (line : String) (models : List (Model F)),
      content.length < fuel →
      ∃ fs added, loadLoop fuel { buf := content, eofbit := false, failbit := false }
          line models = some (fs, models ++ added) ∧
        ∀ m ∈ added, m.2 = [] ∧ m.1.length ≠ 0 := by
  intro fuel
  induction fuel with
  | zero => intro content _ _ h; omega
  | succ f ih =>
    intro content line models hlen
    obtain ⟨hle, hprog⟩ := extractLine_progress content
    have hadd : ∃ added : List (Model F),
        (if (String.mk (extractLine content).1).length = 0 then models
          else models ++ [(String.mk (extractLine content).1, [])]) = models ++ added ∧
        ∀ m ∈ added, m.2 = [] ∧ m.1.length ≠ 0 := by
      by_cases h0 : (String.mk (extractLine content).1).length = 0
      · exact ⟨[], by rw [if_pos h0, List.append_nil], by simp⟩
      · refine ⟨[(String.mk (extractLine content).1, [])], by rw [if_neg h0], ?_⟩
        intro m hm
        simp only [List.mem_singleton] at hm
        subst hm
        exact ⟨rfl, h0⟩
    obtain ⟨added, hadded, hprop⟩ := hadd
    rw [loadLoop_step, hadded]
    by_cases hend : (extractLine content).2.2 = true
    · rw [hend, loadLoop_eof]
      exact ⟨_, added, rfl, hprop⟩
    · have hlt : (extractLine content).2.1.length < content.length := by
        rcases hprog with h | h
        · exact absurd h hend
        · exact h
      have hfalse : (extractLine content).2.2 = false := by simpa using hend
      have hext : (content.length - (extractLine content).2.1.length == 0) = false := by
        simp only [beq_eq_false_iff_ne, ne_eq]; omega
      rw [hfalse, hext]
      obtain ⟨fs, more, h1, h2⟩ := ih (extractLine content).2.1
        (String.mk (extractLine content).1) (models ++ added) (by omega)
      refine ⟨fs, added ++ more, ?_, ?_⟩
      · rw [h1, List.append_assoc]
      · intro m hm
        rcases List.mem_append.mp hm with hm | hm
        · exact hprop m hm
        · exact h2 m hm

/-- The member function loadFileList always returns, and only appends models with a
non-empty label and no features. -/
theorem loadFileList_total {F Img : Type} (w : World F Img) (models : List (Model F))
    (filename : String) :
    ∃ b added, loadFileList w models filename = .ok (b, models ++ added) ∧
      ∀ m ∈ added, m.2 = [] ∧ m.1.length ≠ 0 := by
  unfold loadFileList
  cases hopen : w.openText filename with
  | none => exact ⟨false, [], by simp, by simp⟩
  | some content =>
    obtain ⟨fs, added, h1, h2⟩ := loadLoop_total (F := F) (content.length + 1) content ""
      models (by omega)
    exact ⟨true, added, by simp [h1], h2⟩

/-- On a source whose lines all end with a line feed, loadFileList on an empty list
gives exactly the non-blank lines. -/
theorem loadFileList_terminated {F Img : Type} (w : World F Img) (filename : String)
    (ls : List String) (hlines : ∀ l ∈ ls, newline ∉ l.data)
    (hsrc : w.openText filename = some (terminatedText ls)) :
    loadFileList w ([] : List (Model F)) filename = .ok (true, labelModels F (nonBlank ls)) := by
  obtain ⟨fs, hfs⟩ := loadLoop_terminated (F := F) ls hlines
    ((terminatedText ls).length + 1) "" []
    (by have := length_le_terminatedText ls; omega)
  simp [loadFileList, hsrc, hfs]

/-- When the three files exist and the matrix loads, initialize succeeds: the labels
are appended to the models, the matrix is copied, the index is built over the copy and
the configuration is stored. -/
theorem initialise_success {F Img : Type} (w : World F Img) (ctx : AnnotatorContext)
    (self : DeCafClassifier F Img) (matrix : flannMatrix F)
    (h1 : w.fileExists (w.getPath "rs_addons" ++ "/" ++ ctx.DeCafH5File) = true)
    (h2 : w.fileExists (w.getPath "rs_addons" ++ "/" ++ ctx.DeCafListFile) = true)
    (h3 : w.fileExists (w.getPath "rs_addons" ++ "/" ++ ctx.DeCafKDTreeIndices) = true)
    (hload : w.load_from_file (w.getPath "rs_addons" ++ "/" ++ ctx.DeCafH5File)
      "training_data" = .ok matrix) :
    ∃ b added,
      loadFileList w self.models (w.getPath "rs_addons" ++ "/" ++ ctx.DeCafListFile) =
        .ok (b, self.models ++ added) ∧
      (∀ m ∈ added, m.2 = [] ∧ m.1.length ≠ 0) ∧
      initialise w ctx self = .ok (TyErrorId.UIMA_ERR_NONE,
        { packagePath := w.getPath "rs_addons" ++ "/"
          h5_file := ctx.DeCafH5File
          list_file := ctx.DeCafListFile
          kdtree_file := ctx.DeCafKDTreeIndices
          models := self.models ++ added
          data := cvMat.ofFlann matrix
          index := some { features := cvMat.ofFlann matrix
                          params := IndexParams.KDTreeIndexParams 4
                          distType := w.buildDefaultDistType }
          k := ctx.DeCafKNeighbors
          color := self.color }) := by
  obtain ⟨b, added, hl, hadded⟩ := loadFileList_total w self.models
    (w.getPath "rs_addons" ++ "/" ++ ctx.DeCafListFile)
  refine ⟨b, added, hl, hadded, ?_⟩
  simp [initialise, h1, h2, h3, hl, hload, cv_flann_Index.build]

/-! ## The search of the specification -/

/-- The rows ranked by the search of the specification. -/
theorem knnSearchSpec_eq {F : Type} [LinearOrder F] (metric : List F → List F → F)
    (idx : cv_flann_Index F) (query : List F) (indices : List Int) (dists : List F)
    (k : Int) (checks : Nat) (hdim : query.length = idx.features.cols) (hk1 : 1 ≤ k)
    (hkN : k ≤ (idx.features.rows : Int)) :
    knnSearchSpec metric (some idx) query indices dists k checks =
      .ok (((List.insertionSort (fun a b : Int × F => a.2 ≤ b.2)
          ((List.range idx.features.rows).map
            (fun i : Nat => (Int.ofNat i, metric query (idx.features.row i))))).take
              k.toNat).map Prod.fst,
        ((List.insertionSort (fun a b : Int × F => a.2 ≤ b.2)
          ((List.range idx.features.rows).map
            (fun i : Nat => (Int.ofNat i, metric query (idx.features.row i))))).take
              k.toNat).map Prod.snd) := by
  have h1 : ¬ (k < 1 ∨ (idx.features.rows : Int) < k) := by omega
  simp only [knnSearchSpec, hdim, ne_eq, not_true_eq_false, if_false, h1]

/-- Whatever the search of the specification returns are row indices of the matrix. -/
theorem knnSearchSpec_inRange {F : Type} [LinearOrder F] (metric : List F → List F → F)
    (idx : cv_flann_Index F) (query : List F) (indices : List Int) (dists : List F)
    (k : Int) (checks : Nat) (found : List Int × List F)
    (h : knnSearchSpec metric (some idx) query indices dists k checks = .ok found) :
    ∀ i ∈ found.1, 0 ≤ i ∧ i < (idx.features.rows : Int) := by
  by_cases hdim : query.length = idx.features.cols
  · by_cases hk : k < 1 ∨ (idx.features.rows : Int) < k
    · simp [knnSearchSpec, hdim, hk] at h
    · rw [knnSearchSpec_eq metric idx query indices dists k checks hdim (by omega) (by omega)]
        at h
      injection h with h
      subst h
      intro i hi
      obtain ⟨p, hp, rfl⟩ := List.mem_map.mp hi
      have hp2 := (List.perm_insertionSort _ _).mem_iff.mp (List.mem_of_mem_take hp)
      obtain ⟨j, hj, rfl⟩ := List.mem_map.mp hp2
      have := List.mem_range.mp hj
      simp only [Int.ofNat_eq_coe]
      omega
  · simp [knnSearchSpec, hdim] at h

/-- For a query of the right length and k between 1 and the number of rows, the search
of the specification returns k indices and k distances, the distances ascending. -/
theorem knnSearchSpec_sorted {F : Type} [LinearOrder F] (metric : List F → List F → F)
    (idx : cv_flann_Index F) (query : List F) (indices : List Int) (dists : List F)
    (k : Int) (checks : Nat) (hdim : query.length = idx.features.cols) (hk1 : 1 ≤ k)
    (hkN : k ≤ (idx.features.rows : Int)) :
    ∃ found, knnSearchSpec metric (some idx) query indices dists k checks = .ok found ∧
      found.1.length = k.toNat ∧ found.2.length = k.toNat ∧
      List.Sorted (fun a b => a ≤ b) found.2 := by
  refine ⟨_, knnSearchSpec_eq metric idx query indices dists k checks hdim hk1 hkN, ?_, ?_, ?_⟩
  · simp only [List.length_map, List.length_take, List.length_insertionSort,
      List.length_range]
    omega
  · simp only [List.length_map, List.length_take, List.length_insertionSort,
      List.length_range]
    omega
  · have htotal : IsTotal (Int × F) (fun a b => a.2 ≤ b.2) := ⟨fun a b => le_total a.2 b.2⟩
    have htrans : IsTrans (Int × F) (fun a b => a.2 ≤ b.2) :=
      ⟨fun _ _ _ hab hbc => le_trans hab hbc⟩
    have hsorted := List.sorted_insertionSort (fun a b : Int × F => a.2 ≤ b.2)
      ((List.range idx.features.rows).map
        (fun i : Nat => (Int.ofNat i, metric query (idx.features.row i))))
    have htake := List.Pairwise.sublist (List.take_sublist k.toNat _) hsorted
    exact List.pairwise_map.mpr htake

theorem vecAt_ok {α : Type} (v : List α) (i : Int) (h0 : 0 ≤ i) (hlt : i.toNat < v.length) :
    vecAt v i = .ok (v.get ⟨i.toNat, hlt⟩) := by
  have : ¬ i < 0 := by omega
  simp [vecAt, this, List.getElem?_eq_getElem hlt]

/-! ## The loop over the clusters -/

/-- What the loop body has done when it returns. -/
theorem processCluster_ok_inv {F Img : Type} [Zero F] (w : World F Img)
    (self : DeCafClassifier F Img) (i : Nat) (c : Cluster F) (color : Img)
    (done : Cluster F × Img × Detection F)
    (h : processCluster w self i c color = .ok done) :
    ∃ found i0 m d0,
      nearestKSearch w self.index
        ("cluster" ++ toString i, w.extractFeature (w.crop color c.rois)) self.k [] [] =
        .ok found ∧
      vecAt found.1 0 = .ok i0 ∧ vecAt self.models i0 = .ok m ∧ vecAt found.2 0 = .ok d0 ∧
      done = ({ c with annotations := c.annotations ++
                  [{ name := m.1, source := "DeCafClassifier", confidence := d0 }] },
        drawCluster w color c.rois m.1,
        { name := m.1, source := "DeCafClassifier", confidence := d0 }) := by
  unfold processCluster at h
  cases hs : nearestKSearch w self.index
      ("cluster" ++ toString i, w.extractFeature (w.crop color c.rois)) self.k [] [] with
  | error e => simp [hs] at h
  | ok found =>
    simp only [hs] at h
    cases hlog : logNeighbors self.models found.1 found.2 (List.range self.k.toNat) with
    | error e => simp [hlog] at h
    | ok u =>
      simp only [hlog] at h
      cases h0 : vecAt found.1 0 with
      | error e => simp [h0] at h
      | ok i0 =>
        simp only [h0] at h
        cases hm : vecAt self.models i0 with
        | error e => simp [hm] at h
        | ok m =>
          simp only [hm] at h
          cases hd : vecAt found.2 0 with
          | error e => simp [hd] at h
          | ok d0 =>
            simp only [hd] at h
            injection h with h
            exact ⟨found, i0, m, d0, rfl, h0, hm, hd, h.symm⟩

theorem logNeighbors_ok {F : Type} (models : List (Model F)) (k_indices : List Int)
    (k_distances : List F) (js : List Nat)
    (h : ∀ j ∈ js, ∃ i m d, vecAt k_indices (Int.ofNat j) = .ok i ∧ vecAt models i = .ok m ∧
      vecAt k_distances (Int.ofNat j) = .ok d) :
    logNeighbors models k_indices k_distances js = .ok () := by
  induction js with
  | nil => rfl
  | cons j js ih =>
    obtain ⟨i, m, d, h1, h2, h3⟩ := h j (by simp)
    have h1c : vecAt k_indices (j : Int) = .ok i := h1
    have h3c : vecAt k_distances (j : Int) = .ok d := h3
    simp only [logNeighbors, h1c, h2, h3c]
    exact ih (fun j2 hj2 => h j2 (by simp [hj2]))

/-- The loop body returns when every subscript is inside its vector. -/
theorem processCluster_total {F Img : Type} [Zero F] (w : World F Img)
    (self : DeCafClassifier F Img) (hL : LookupsInRange w self) (i : Nat) (c : Cluster F)
    (color : Img) : ∃ done, processCluster w self i c color = .ok done := by
  obtain ⟨hk, hsearch⟩ := hL
  obtain ⟨found, hfound, hall⟩ := hsearch ("cluster" ++ toString i) color c.rois
  have hlog := logNeighbors_ok self.models found.1 found.2 (List.range self.k.toNat)
    (fun j hj => hall j (List.mem_range.mp hj))
  obtain ⟨i0, m, d0, h0, hm, hd⟩ := hall 0 (by omega)
  have h0c : vecAt found.1 0 = .ok i0 := h0
  have hdc : vecAt found.2 0 = .ok d0 := hd
  refine ⟨({ c with annotations := c.annotations ++
      [{ name := m.1, source := "DeCafClassifier", confidence := d0 }] },
    drawCluster w color c.rois m.1,
    { name := m.1, source := "DeCafClassifier", confidence := d0 }), ?_⟩
  simp only [processCluster, hfound, hlog, h0c, hm, hdc]

/-- The loop returns when every subscript is inside its vector. -/
theorem processLoop_total {F Img : Type} [Zero F] (w : World F Img)
    (self : DeCafClassifier F Img) (hL : LookupsInRange w self) :
    ∀ (cs : List (Cluster F)) (i : Nat) (color : Img),
      ∃ r, processLoop w self i cs color = .ok r := by
  intro cs
  induction cs with
  | nil => intro i color; exact ⟨_, rfl⟩
  | cons c cs ih =>
    intro i color
    by_cases hp : c.points.isNone = true
    · obtain ⟨r, hr⟩ := ih (i + 1) color
      exact ⟨(c :: r.1, r.2.1, r.2.2), by simp only [processLoop, hp, if_true, hr]⟩
    · obtain ⟨done, hdone⟩ := processCluster_total w self hL i c color
      obtain ⟨r, hr⟩ := ih (i + 1) done.2.1
      exact ⟨(done.1 :: r.1, r.2.1, done.2.2 :: r.2.2),
        by simp only [processLoop, hp, if_false, hdone, hr]; rfl⟩

/-- What the loop has done when it returns: as many clusters as before, one detection
per cluster with points; a cluster without points is unchanged, a cluster with points
has gained the detection made from position 0 of the search on its region. -/
theorem processLoop_ok_inv {F Img : Type} [Zero F] (w : World F Img)
    (self : DeCafClassifier F Img) :
    ∀ (cs : List (Cluster F)) (i : Nat) (color : Img)
      (r : List (Cluster F) × Img × List (Detection F)),
      processLoop w self i cs color = .ok r →
      r.1.length = cs.length ∧
      r.2.2.length = (cs.filter (fun c => c.points.isSome)).length ∧
      ∀ j c c', cs[j]? = some c → r.1[j]? = some c' →
        (c.points.isSome = false → c' = c) ∧
        (c.points.isSome = true →
          ∃ img found i0 m d0,
            nearestKSearch w self.index
              ("cluster" ++ toString (i + j), w.extractFeature (w.crop img c.rois))
              self.k [] [] = .ok found ∧
            vecAt found.1 0 = .ok i0 ∧ vecAt self.models i0 = .ok m ∧
            vecAt found.2 0 = .ok d0 ∧
            c' = { c with annotations := c.annotations ++
              [{ name := m.1, source := "DeCafClassifier", confidence := d0 }] } ∧
            ({ name := m.1, source := "DeCafClassifier", confidence := d0 } : Detection F)
              ∈ r.2.2) := by
  intro cs
  induction cs with
  | nil =>
    intro i color r h
    simp only [processLoop] at h
    injection h with h
    subst h
    exact ⟨rfl, rfl, fun j c c' hc => by simp at hc⟩
  | cons c0 cs ih =>
    intro i color r h
    by_cases hp : c0.points.isNone = true
    · have hsome : c0.points.isSome = false := by
        rw [Option.isNone_iff_eq_none] at hp
        rw [hp]
        rfl
      cases hrest : processLoop w self (i + 1) cs color with
      | error e => simp [processLoop, hp, hrest] at h
      | ok r2 =>
        simp only [processLoop, hp, if_true, hrest] at h
        injection h with h
        subst h
        obtain ⟨hlen, hcount, hall⟩ := ih (i + 1) color r2 hrest
        refine ⟨by simp [hlen], by simp [List.filter_cons, hsome, hcount], ?_⟩
        intro j c c' hc hc'
        cases j with
        | zero =>
          simp only [List.getElem?_cons_zero, Option.some.injEq] at hc hc'
          subst hc; subst hc'
          exact ⟨fun _ => rfl, fun h1 => by rw [hsome] at h1; cases h1⟩
        | succ j =>
          simp only [List.getElem?_cons_succ] at hc hc'
          have := hall j c c' hc hc'
          have hidx : i + 1 + j = i + (j + 1) := by omega
          rw [hidx] at this
          exact this
    · have hsome : c0.points.isSome = true := by
        cases hpt : c0.points with
        | none => rw [hpt] at hp; exact absurd rfl hp
        | some v => rfl
      cases hbody : processCluster w self i c0 color with
      | error e => simp [processLoop, hp, hbody] at h
      | ok done =>
        cases hrest : processLoop w self (i + 1) cs done.2.1 with
        | error e => simp [processLoop, hp, hbody, hrest] at h
        | ok r2 =>
          simp only [processLoop, hp, if_false, hbody, hrest] at h
          injection h with h
          subst h
          obtain ⟨hlen, hcount, hall⟩ := ih (i + 1) done.2.1 r2 hrest
          obtain ⟨found, i0, m, d0, hs, h0, hm, hd, hdone⟩ :=
            processCluster_ok_inv w self i c0 color done hbody
          refine ⟨by simp [hlen], by simp [List.filter_cons, hsome, hcount], ?_⟩
          intro j c c' hc hc'
          cases j with
          | zero =>
            simp only [List.getElem?_cons_zero, Option.some.injEq] at hc hc'
            subst hc; subst hc'
            refine ⟨fun h1 => absurd h1 (by rw [hsome]; decide), fun _ => ?_⟩
            refine ⟨color, found, i0, m, d0, hs, h0, hm, hd, ?_, ?_⟩
            · rw [hdone]
            · rw [hdone]; simp
          | succ j =>
            simp only [List.getElem?_cons_succ] at hc hc'
            obtain ⟨hnone, hsomeCase⟩ := hall j c c' hc hc'
            refine ⟨hnone, fun h1 => ?_⟩
            obtain ⟨img, found2, i2, m2, d2, hs2, h02, hm2, hd2, hc2, hmem⟩ := hsomeCase h1
            have hidx : i + 1 + j = i + (j + 1) := by omega
            rw [hidx] at hs2
            exact ⟨img, found2, i2, m2, d2, hs2, h02, hm2, hd2, hc2, by simp [hmem]⟩

/-- With the search of the specification behind an index of at least k rows and at most
as many rows as labels, every subscript of the loop body is inside its vector. -/
theorem lookupsInRange_of_spec {F Img : Type} [LinearOrder F] [Zero F] (w : World F Img)
    (metric : List F → List F → F) (hw : w.knnSearch = knnSearchSpec metric)
    (self : DeCafClassifier F Img) (idx : cv_flann_Index F) (hidx : self.index = some idx)
    (hdim : ∀ img, (w.extractFeature img).length = idx.features.cols)
    (hk1 : 1 ≤ self.k) (hkN : self.k ≤ (idx.features.rows : Int))
    (hrows : idx.features.rows ≤ self.models.length) : LookupsInRange w self := by
  refine ⟨hk1, fun name img roi => ?_⟩
  have hk0 : ¬ self.k < 0 := by omega
  obtain ⟨found, hfound, hl1, hl2, _⟩ := knnSearchSpec_sorted metric idx
    (w.extractFeature (w.crop img roi))
    (List.take self.k.toNat ([] : List Int) ++
      List.replicate (self.k.toNat - ([] : List Int).length) 0)
    (List.take self.k.toNat ([] : List F) ++
      List.replicate (self.k.toNat - ([] : List F).length) 0)
    self.k 512 (hdim _) hk1 hkN
  have hin := knnSearchSpec_inRange metric idx _ _ _ _ _ found hfound
  refine ⟨found, ?_, fun j hj => ?_⟩
  · simp only [nearestKSearch, resize, hk0, if_false, hw, hidx]
    exact hfound
  · have hj1 : (Int.ofNat j).toNat < found.1.length := by
      simp only [Int.ofNat_eq_coe, Int.toNat_ofNat]; omega
    have hj2 : (Int.ofNat j).toNat < found.2.length := by
      simp only [Int.ofNat_eq_coe, Int.toNat_ofNat]; omega
    have hnn : (0 : Int) ≤ Int.ofNat j := Int.ofNat_nonneg j
    have hmem := hin _ (List.get_mem found.1 (Int.ofNat j).toNat hj1)
    have hlt : (found.1.get ⟨(Int.ofNat j).toNat, hj1⟩).toNat < self.models.length := by
      omega
    exact ⟨_, _, _, vecAt_ok found.1 _ hnn hj1, vecAt_ok self.models _ hmem.1 hlt,
      vecAt_ok found.2 _ hnn hj2⟩

/-! ## Claims -/

/-- C1. For every label source given as a sequence of lines (each line ended by a line
feed, or the lines separated by line feeds), loadFileList on an empty model list returns
true with one entry per non-blank line: the labels are the non-blank lines in their
order, entry i carries the i-th non-blank line, and no entry has an empty label. -/
theorem loadFileList_labels {F Img : Type} (w : World F Img) (filename : String)
    (ls : List String) (hlines : ∀ l ∈ ls, newline ∉ l.data)
    (hsrc : w.openText filename = some (terminatedText ls) ∨
      w.openText filename = some (separatedText ls)) :
    ∃ models : List (Model F),
      loadFileList w [] filename = .ok (true, models) ∧
      models.map Prod.fst = ls.filter (fun l => decide (l ≠ "")) ∧
      models.length = (ls.filter (fun l => decide (l ≠ ""))).length ∧
      (∀ i, i < models.length →
        (models[i]?).map Prod.fst = (ls.filter (fun l => decide (l ≠ "")))[i]?) ∧
      (∀ m ∈ models, m.1 ≠ "") := by
  have hmap : (labelModels F (nonBlank ls)).map Prod.fst =
      ls.filter (fun l => decide (l ≠ "")) := by
    rw [← nonBlank_eq_filter]
    simp [labelModels, Function.comp_def]
  refine ⟨labelModels F (nonBlank ls), ?_, hmap, ?_, ?_, ?_⟩
  · rcases hsrc with hsrc | hsrc
    · obtain ⟨fs, hfs⟩ := loadLoop_terminated (F := F) ls hlines
        ((terminatedText ls).length + 1) "" []
        (by have := length_le_terminatedText ls; omega)
      simp [loadFileList, hsrc, hfs]
    · obtain ⟨fs, hfs⟩ := loadLoop_separated (F := F) ls hlines
        ((separatedText ls).length + 1) "" []
        (by omega) (length_le_separatedText ls)
      simp [loadFileList, hsrc, hfs]
  · rw [← hmap, List.length_map]
  · intro i _
    rw [← hmap, List.getElem?_map]
  · intro m hm
    have : m.1 ∈ ls.filter (fun l => decide (l ≠ "")) := by
      rw [← hmap]; exact List.mem_map_of_mem _ hm
    simpa using (List.mem_filter.mp this).2

/-- C1, at a source of four lines of which two are blank. -/
theorem loadFileList_labels_witness :
    (∀ l ∈ ["apple", "", "banana", ""], newline ∉ l.data) ∧
    ∃ models : List (Model Int),
      loadFileList (demoWorld demoPaths (terminatedText ["apple", "", "banana", ""])
          { rows := 0, cols := 0, ptr := [] }) [] "pkg/list.txt" = .ok (true, models) ∧
      models.map Prod.fst = ["apple", "", "banana", ""].filter (fun l => decide (l ≠ "")) ∧
      models.length = (["apple", "", "banana", ""].filter (fun l => decide (l ≠ ""))).length ∧
      (∀ i, i < models.length → (models[i]?).map Prod.fst =
        (["apple", "", "banana", ""].filter (fun l => decide (l ≠ "")))[i]?) ∧
      (∀ m ∈ models, m.1 ≠ "") :=
  ⟨by decide,
   loadFileList_labels _ "pkg/list.txt" ["apple", "", "banana", ""] (by decide)
     (Or.inl (by simp [demoWorld]))⟩

/-- C2. When one of the three sources (matrix file, label file, index file) does not
exist, initialize returns the could-not-init error and leaves models, data and index as
they were; when all three exist, initialize does not return that error. -/
theorem initialise_missing_source {F Img : Type} (w : World F Img) (ctx : AnnotatorContext)
    (self : DeCafClassifier F Img) :
    ((w.fileExists (w.getPath "rs_addons" ++ "/" ++ ctx.DeCafH5File) = false ∨
        w.fileExists (w.getPath "rs_addons" ++ "/" ++ ctx.DeCafListFile) = false ∨
        w.fileExists (w.getPath "rs_addons" ++ "/" ++ ctx.DeCafKDTreeIndices) = false) →
      ∃ self', initialise w ctx self =
          .ok (TyErrorId.UIMA_ERR_USER_ANNOTATOR_COULD_NOT_INIT, self') ∧
        self'.models = self.models ∧ self'.data = self.data ∧ self'.index = self.index) ∧
    ((w.fileExists (w.getPath "rs_addons" ++ "/" ++ ctx.DeCafH5File) = true ∧
        w.fileExists (w.getPath "rs_addons" ++ "/" ++ ctx.DeCafListFile) = true ∧
        w.fileExists (w.getPath "rs_addons" ++ "/" ++ ctx.DeCafKDTreeIndices) = true) →
      ∀ self', initialise w ctx self ≠
        .ok (TyErrorId.UIMA_ERR_USER_ANNOTATOR_COULD_NOT_INIT, self')) := by
  constructor
  · intro h
    have hcond : (!w.fileExists (w.getPath "rs_addons" ++ "/" ++ ctx.DeCafH5File)
        || !w.fileExists (w.getPath "rs_addons" ++ "/" ++ ctx.DeCafListFile)
        || !w.fileExists (w.getPath "rs_addons" ++ "/" ++ ctx.DeCafKDTreeIndices)) = true := by
      rcases h with h | h | h <;> simp [h]
    refine ⟨{ self with
        packagePath := w.getPath "rs_addons" ++ "/"
        h5_file := ctx.DeCafH5File
        list_file := ctx.DeCafListFile
        kdtree_file := ctx.DeCafKDTreeIndices
        k := ctx.DeCafKNeighbors }, ?_, rfl, rfl, rfl⟩
    simp only [initialise]
    rw [if_pos hcond]
  · rintro ⟨h1, h2, h3⟩ self' heq
    obtain ⟨b, added, hl, _⟩ := loadFileList_total w self.models
      (w.getPath "rs_addons" ++ "/" ++ ctx.DeCafListFile)
    simp only [initialise, h1, h2, h3, hl] at heq
    cases hload : w.load_from_file (w.getPath "rs_addons" ++ "/" ++ ctx.DeCafH5File)
        "training_data" with
    | error e => simp [hload] at heq
    | ok m => simp [hload] at heq

/-- C2, at a world where the matrix file is missing and at a world where the three
files exist. -/
theorem initialise_missing_source_witness :
    (∃ self', initialise (demoWorld ["pkg/list.txt", "pkg/kdtree.idx"]
          (terminatedText ["apple"]) { rows := 1, cols := 1, ptr := [5] })
          (demoCtx 1) freshAnnotator =
          .ok (TyErrorId.UIMA_ERR_USER_ANNOTATOR_COULD_NOT_INIT, self') ∧
        self'.models = freshAnnotator.models ∧ self'.data = freshAnnotator.data ∧
        self'.index = freshAnnotator.index) ∧
    (∀ self', initialise (demoWorld demoPaths
          (terminatedText ["apple"]) { rows := 1, cols := 1, ptr := [5] })
          (demoCtx 1) freshAnnotator ≠
          .ok (TyErrorId.UIMA_ERR_USER_ANNOTATOR_COULD_NOT_INIT, self')) :=
  ⟨(initialise_missing_source _ (demoCtx 1) freshAnnotator).1 (Or.inl (by decide)),
   (initialise_missing_source _ (demoCtx 1) freshAnnotator).2
     ⟨by decide, by decide, by decide⟩⟩

/-- C3, refuted: with three labels and a matrix of four rows initialize returns
UIMA_ERR_NONE, keeping three models next to four rows. -/
theorem initialise_three_labels_four_rows :
    ∃ self', initialise (demoWorld demoPaths (terminatedText ["a", "b", "c"])
          { rows := 4, cols := 1, ptr := [0, 1, 2, 3] }) (demoCtx 1) freshAnnotator =
          .ok (TyErrorId.UIMA_ERR_NONE, self') ∧
      self'.models.length = 3 ∧ self'.data.rows = 4 ∧
      self'.models.length ≠ self'.data.rows :=
  ⟨_, rfl, rfl, rfl, by decide⟩

/-- C3, amended. Initialize does not compare the number of labels with the number of
rows: when the three files exist and the matrix loads, it returns UIMA_ERR_NONE with as
many models as non-blank lines and as many rows as the matrix, whatever the two
numbers are. -/
theorem initialise_no_count_check {F Img : Type} (w : World F Img) (ctx : AnnotatorContext)
    (self : DeCafClassifier F Img) (matrix : flannMatrix F) (ls : List String)
    (hempty : self.models = [])
    (h1 : w.fileExists (w.getPath "rs_addons" ++ "/" ++ ctx.DeCafH5File) = true)
    (h2 : w.fileExists (w.getPath "rs_addons" ++ "/" ++ ctx.DeCafListFile) = true)
    (h3 : w.fileExists (w.getPath "rs_addons" ++ "/" ++ ctx.DeCafKDTreeIndices) = true)
    (hload : w.load_from_file (w.getPath "rs_addons" ++ "/" ++ ctx.DeCafH5File)
      "training_data" = .ok matrix)
    (hlines : ∀ l ∈ ls, newline ∉ l.data)
    (hsrc : w.openText (w.getPath "rs_addons" ++ "/" ++ ctx.DeCafListFile) =
      some (terminatedText ls)) :
    ∃ self', initialise w ctx self = .ok (TyErrorId.UIMA_ERR_NONE, self') ∧
      self'.models.length = (nonBlank ls).length ∧ self'.data.rows = matrix.rows := by
  have hl := loadFileList_terminated (F := F) w _ ls hlines hsrc
  obtain ⟨b, added, hl2, _, hinit⟩ := initialise_success w ctx self matrix h1 h2 h3 hload
  rw [hempty, hl, List.nil_append] at hl2
  have hadded : added = labelModels F (nonBlank ls) := by
    injection hl2 with hpair
    exact (congrArg Prod.snd hpair).symm
  refine ⟨_, hinit, ?_, rfl⟩
  simp [hempty, hadded, labelModels]

/-- C3 amended, at three labels and four rows. -/
theorem initialise_no_count_check_witness :
    ∃ self', initialise (demoWorld demoPaths (terminatedText ["a", "b", "c"])
          { rows := 4, cols := 1, ptr := [0, 1, 2, 3] }) (demoCtx 1) freshAnnotator =
          .ok (TyErrorId.UIMA_ERR_NONE, self') ∧
      self'.models.length = (nonBlank ["a", "b", "c"]).length ∧
      self'.data.rows = (4 : Nat) :=
  initialise_no_count_check _ (demoCtx 1) freshAnnotator
    { rows := 4, cols := 1, ptr := [0, 1, 2, 3] } ["a", "b", "c"] rfl
    (by decide) (by decide) (by decide) rfl (by decide) rfl

/-- C6, refuted: with three labels and three rows, initialize returns UIMA_ERR_NONE for
k = 0, for k = 4 and for k = -1, and stores that k. -/
theorem initialise_accepts_k_outside :
    (∃ self', initialise (demoWorld demoPaths (terminatedText ["a", "b", "c"])
          { rows := 3, cols := 1, ptr := [0, 1, 2] }) (demoCtx 0) freshAnnotator =
          .ok (TyErrorId.UIMA_ERR_NONE, self') ∧ self'.k = 0 ∧ self'.models.length = 3) ∧
    (∃ self', initialise (demoWorld demoPaths (terminatedText ["a", "b", "c"])
          { rows := 3, cols := 1, ptr := [0, 1, 2] }) (demoCtx 4) freshAnnotator =
          .ok (TyErrorId.UIMA_ERR_NONE, self') ∧ self'.k = 4 ∧ self'.models.length = 3) ∧
    (∃ self', initialise (demoWorld demoPaths (terminatedText ["a", "b", "c"])
          { rows := 3, cols := 1, ptr := [0, 1, 2] }) (demoCtx (-1)) freshAnnotator =
          .ok (TyErrorId.UIMA_ERR_NONE, self') ∧ self'.k = -1 ∧ self'.models.length = 3) :=
  ⟨⟨_, rfl, rfl, rfl⟩, ⟨_, rfl, rfl, rfl⟩, ⟨_, rfl, rfl, rfl⟩⟩

/-- C6, amended. Initialize does not validate the neighbour count: when the three files
exist and the matrix loads, it returns UIMA_ERR_NONE for every configured k and stores
that k unchanged. -/
theorem initialise_any_k {F Img : Type} (w : World F Img) (ctx : AnnotatorContext)
    (self : DeCafClassifier F Img) (matrix : flannMatrix F)
    (h1 : w.fileExists (w.getPath "rs_addons" ++ "/" ++ ctx.DeCafH5File) = true)
    (h2 : w.fileExists (w.getPath "rs_addons" ++ "/" ++ ctx.DeCafListFile) = true)
    (h3 : w.fileExists (w.getPath "rs_addons" ++ "/" ++ ctx.DeCafKDTreeIndices) = true)
    (hload : w.load_from_file (w.getPath "rs_addons" ++ "/" ++ ctx.DeCafH5File)
      "training_data" = .ok matrix) :
    ∃ self', initialise w ctx self = .ok (TyErrorId.UIMA_ERR_NONE, self') ∧
      self'.k = ctx.DeCafKNeighbors := by
  obtain ⟨b, added, _, _, hinit⟩ := initialise_success w ctx self matrix h1 h2 h3 hload
  exact ⟨_, hinit, rfl⟩

/-- C6 amended, at k = 7 over a database of one entry. -/
theorem initialise_any_k_witness :
    ∃ self', initialise (demoWorld demoPaths (terminatedText ["apple"])
          { rows := 1, cols := 1, ptr := [5] }) (demoCtx 7) freshAnnotator =
          .ok (TyErrorId.UIMA_ERR_NONE, self') ∧
      self'.k = (demoCtx 7).DeCafKNeighbors :=
  initialise_any_k _ (demoCtx 7) freshAnnotator { rows := 1, cols := 1, ptr := [5] }
    (by decide) (by decide) (by decide) rfl

/-- What a successful initialize has done: the three files exist, the matrix loaded, and
the annotator holds the appended labels, a copy of the matrix and an index over it. -/
theorem initialise_ok_inv {F Img : Type} (w : World F Img) (ctx : AnnotatorContext)
    (self self' : DeCafClassifier F Img)
    (hok : initialise w ctx self = .ok (TyErrorId.UIMA_ERR_NONE, self')) :
    ∃ matrix added,
      w.load_from_file (w.getPath "rs_addons" ++ "/" ++ ctx.DeCafH5File) "training_data" =
        .ok matrix ∧
      (∀ m ∈ added, m.2 = [] ∧ m.1.length ≠ 0) ∧
      self'.models = self.models ++ added ∧
      self'.data = cvMat.ofFlann matrix ∧
      self'.index = some { features := cvMat.ofFlann matrix
                           params := IndexParams.KDTreeIndexParams 4
                           distType := w.buildDefaultDistType } ∧
      self'.k = ctx.DeCafKNeighbors := by
  by_cases hcond : (!w.fileExists (w.getPath "rs_addons" ++ "/" ++ ctx.DeCafH5File)
      || !w.fileExists (w.getPath "rs_addons" ++ "/" ++ ctx.DeCafListFile)
      || !w.fileExists (w.getPath "rs_addons" ++ "/" ++ ctx.DeCafKDTreeIndices)) = true
  · simp only [initialise] at hok
    rw [if_pos hcond] at hok
    simp at hok
  · have h1 : w.fileExists (w.getPath "rs_addons" ++ "/" ++ ctx.DeCafH5File) = true := by
      cases h : w.fileExists (w.getPath "rs_addons" ++ "/" ++ ctx.DeCafH5File) <;> simp_all
    have h2 : w.fileExists (w.getPath "rs_addons" ++ "/" ++ ctx.DeCafListFile) = true := by
      cases h : w.fileExists (w.getPath "rs_addons" ++ "/" ++ ctx.DeCafListFile) <;> simp_all
    have h3 : w.fileExists (w.getPath "rs_addons" ++ "/" ++ ctx.DeCafKDTreeIndices) = true := by
      cases h : w.fileExists (w.getPath "rs_addons" ++ "/" ++ ctx.DeCafKDTreeIndices) <;>
        simp_all
    cases hload : w.load_from_file (w.getPath "rs_addons" ++ "/" ++ ctx.DeCafH5File)
        "training_data" with
    | error e =>
      obtain ⟨b, added, hl, _⟩ := loadFileList_total w self.models
        (w.getPath "rs_addons" ++ "/" ++ ctx.DeCafListFile)
      simp [initialise, h1, h2, h3, hl, hload] at hok
    | ok matrix =>
      obtain ⟨b, added, _, hadded, hinit⟩ :=
        initialise_success w ctx self matrix h1 h2 h3 hload
      rw [hinit] at hok
      injection hok with hpair
      have hself := congrArg Prod.snd hpair
      simp only at hself
      subst hself
      exact ⟨matrix, added, rfl, hadded, rfl, rfl, rfl, rfl⟩

/-- C8, refuted: with one label and the 1 x 1 matrix holding 5, initialize succeeds, the
features of entry 0 are empty and row 0 of the matrix is [5]. -/
theorem initialise_features_differ :
    ∃ self' m, initialise (demoWorld demoPaths (terminatedText ["apple"])
          { rows := 1, cols := 1, ptr := [5] }) (demoCtx 1) freshAnnotator =
          .ok (TyErrorId.UIMA_ERR_NONE, self') ∧
      self'.models[0]? = some m ∧ m.2 = [] ∧ self'.data.row 0 = [5] ∧
      m.2 ≠ self'.data.row 0 :=
  ⟨_, _, rfl, rfl, rfl, rfl, by decide⟩

/-- C8, amended. After a successful initialize of an annotator that held no model, the
features field of every database entry is empty; the feature values are held by the
matrix alone, which has the shape and the values of the loaded matrix, row by row, and
is the matrix the index is built over. -/
theorem initialise_features_empty {F Img : Type} (w : World F Img) (ctx : AnnotatorContext)
    (self self' : DeCafClassifier F Img) (hempty : self.models = [])
    (hok : initialise w ctx self = .ok (TyErrorId.UIMA_ERR_NONE, self')) :
    (∀ m ∈ self'.models, m.2 = []) ∧
    ∃ matrix,
      w.load_from_file (w.getPath "rs_addons" ++ "/" ++ ctx.DeCafH5File) "training_data" =
        .ok matrix ∧
      self'.data.rows = matrix.rows ∧ self'.data.cols = matrix.cols ∧
      (∀ i, self'.data.row i = (matrix.ptr.drop (i * matrix.cols)).take matrix.cols) ∧
      ∃ idx, self'.index = some idx ∧ idx.features = self'.data := by
  obtain ⟨matrix, added, hload, hadded, hmodels, hdata, hindex, _⟩ :=
    initialise_ok_inv w ctx self self' hok
  refine ⟨?_, matrix, hload, ?_, ?_, ?_, _, hindex, ?_⟩
  · intro m hm
    rw [hmodels, hempty, List.nil_append] at hm
    exact (hadded m hm).1
  · rw [hdata]; rfl
  · rw [hdata]; rfl
  · intro i; rw [hdata]; rfl
  · rw [hdata]

/-- C8 amended, at two labels and a 2 x 2 matrix. -/
theorem initialise_features_empty_witness :
    (∀ m ∈ ([("apple", []), ("banana", [])] : List (Model Int)), m.2 = []) ∧
    ∃ matrix : flannMatrix Int,
      (Except.ok { rows := 2, cols := 2, ptr := [1, 0, 0, 1] } : Except Fault (flannMatrix Int))
        = .ok matrix ∧
      (2 : Nat) = matrix.rows ∧ (2 : Nat) = matrix.cols ∧
      (∀ i, cvMat.row ({ rows := 2, cols := 2, data := [1, 0, 0, 1] } : cvMat Int) i =
        (matrix.ptr.drop (i * matrix.cols)).take matrix.cols) ∧
      ∃ idx : cv_flann_Index Int,
        some { features := { rows := 2, cols := 2, data := [1, 0, 0, 1] }
               params := IndexParams.KDTreeIndexParams 4
               distType := flann_distance_t.FLANN_DIST_L2 } = some idx ∧
        idx.features = { rows := 2, cols := 2, data := [1, 0, 0, 1] } :=
  initialise_features_empty
    (demoWorld demoPaths (terminatedText ["apple", "banana"])
      { rows := 2, cols := 2, ptr := [1, 0, 0, 1] })
    (demoCtx 1) freshAnnotator
    { packagePath := "pkg/"
      h5_file := "data.h5"
      list_file := "list.txt"
      kdtree_file := "kdtree.idx"
      models := [("apple", []), ("banana", [])]
      data := { rows := 2, cols := 2, data := [1, 0, 0, 1] }
      index := some { features := { rows := 2, cols := 2, data := [1, 0, 0, 1] }
                      params := IndexParams.KDTreeIndexParams 4
                      distType := flann_distance_t.FLANN_DIST_L2 }
      k := 1
      color := [] }
    rfl rfl

/-- C9, on the code: under the default distance of the library, FLANN_DIST_L2, the index
that a successful initialize builds has the distance kind FLANN_DIST_L2, which is not the
chi-square distance that the typedef Index names. -/
theorem initialise_index_distance {F Img : Type} (w : World F Img) (ctx : AnnotatorContext)
    (self self' : DeCafClassifier F Img)
    (hdefault : w.buildDefaultDistType = flann_distance_t.FLANN_DIST_L2)
    (hok : initialise w ctx self = .ok (TyErrorId.UIMA_ERR_NONE, self')) :
    ∃ idx, self'.index = some idx ∧ idx.distType = flann_distance_t.FLANN_DIST_L2 ∧
      idx.distType ≠ Index_typedef_distance := by
  obtain ⟨matrix, added, _, _, _, _, hindex, _⟩ := initialise_ok_inv w ctx self self' hok
  refine ⟨_, hindex, hdefault, ?_⟩
  simp only [hdefault, Index_typedef_distance]
  decide

/-- C9 on the code, at a database of one entry. -/
theorem initialise_index_distance_witness :
    ∃ idx : cv_flann_Index Int,
      some { features := { rows := 1, cols := 1, data := [5] }
             params := IndexParams.KDTreeIndexParams 4
             distType := flann_distance_t.FLANN_DIST_L2 } = some idx ∧
      idx.distType = flann_distance_t.FLANN_DIST_L2 ∧
      idx.distType ≠ Index_typedef_distance :=
  initialise_index_distance
    (demoWorld demoPaths (terminatedText ["apple"]) { rows := 1, cols := 1, ptr := [5] })
    (demoCtx 1) freshAnnotator
    { packagePath := "pkg/"
      h5_file := "data.h5"
      list_file := "list.txt"
      kdtree_file := "kdtree.idx"
      models := [("apple", [])]
      data := { rows := 1, cols := 1, data := [5] }
      index := some { features := { rows := 1, cols := 1, data := [5] }
                      params := IndexParams.KDTreeIndexParams 4
                      distType := flann_distance_t.FLANN_DIST_L2 }
      k := 1
      color := [] }
    rfl rfl

/-- C4. With the search of the specification behind the index, for every k between 1
and the number of rows and every query of the dimension of the database, nearestKSearch
returns exactly k row indices and exactly k distances, the distances in non-decreasing
order. -/
theorem nearestKSearch_returns_k_sorted {F Img : Type} [LinearOrder F] [Zero F]
    (w : World F Img) (metric : List F → List F → F)
    (hw : w.knnSearch = knnSearchSpec metric) (idx : cv_flann_Index F) (model : Model F)
    (k : Int) (indices : List Int) (distances : List F)
    (hdim : model.2.length = idx.features.cols) (hk1 : 1 ≤ k)
    (hkN : k ≤ (idx.features.rows : Int)) :
    ∃ found, nearestKSearch w (some idx) model k indices distances = .ok found ∧
      (found.1.length : Int) = k ∧ (found.2.length : Int) = k ∧
      List.Sorted (fun a b => a ≤ b) found.2 := by
  have hk0 : ¬ k < 0 := by omega
  obtain ⟨found, hfound, hlen1, hlen2, hsorted⟩ := knnSearchSpec_sorted metric idx model.2
    (List.take k.toNat indices ++ List.replicate (k.toNat - indices.length) 0)
    (List.take k.toNat distances ++ List.replicate (k.toNat - distances.length) 0)
    k 512 hdim hk1 hkN
  refine ⟨found, ?_, ?_, ?_, hsorted⟩
  · simp only [nearestKSearch, resize, hk0, if_false, hw]
    exact hfound
  · rw [hlen1]; omega
  · rw [hlen2]; omega

/-- C4, at the database of the end-to-end scenario scaled by one hundred, k = 2. -/
theorem nearestKSearch_returns_k_sorted_witness :
    ∃ found, nearestKSearch
        (demoWorld demoPaths (terminatedText ["apple", "banana", "apple2"])
          { rows := 3, cols := 3, ptr := [100, 0, 0, 0, 100, 0, 90, 10, 0] })
        (some { features := { rows := 3, cols := 3, data := [100, 0, 0, 0, 100, 0, 90, 10, 0] }
                params := IndexParams.KDTreeIndexParams 4
                distType := flann_distance_t.FLANN_DIST_L2 })
        ("cluster0", [95, 5, 0]) 2 [] [] = .ok found ∧
      (found.1.length : Int) = 2 ∧ (found.2.length : Int) = 2 ∧
      List.Sorted (fun a b => a ≤ b) found.2 :=
  nearestKSearch_returns_k_sorted _ sqDist rfl _ ("cluster0", [95, 5, 0]) 2 [] []
    rfl (by decide) (by decide)

/-- C7, refuted: with three labels and a matrix of four rows initialize succeeds; the
search, which only returns row indices of the matrix, answers the query [3] with row 3;
the label list has three entries, so the lookup of the label is out of range and
processWithLock faults on a cluster with that feature. -/
theorem search_index_outside_labels :
    ∃ self', initialise (demoWorld demoPaths (terminatedText ["a", "b", "c"])
          { rows := 4, cols := 1, ptr := [0, 1, 2, 3] }) (demoCtx 1) freshAnnotator =
          .ok (TyErrorId.UIMA_ERR_NONE, self') ∧
      SearchInRange (demoWorld demoPaths (terminatedText ["a", "b", "c"])
          { rows := 4, cols := 1, ptr := [0, 1, 2, 3] }) ∧
      nearestKSearch (demoWorld demoPaths (terminatedText ["a", "b", "c"])
          { rows := 4, cols := 1, ptr := [0, 1, 2, 3] }) self'.index ("cluster0", [3])
          self'.k [] [] = .ok ([3], [0]) ∧
      self'.models.length = 3 ∧
      vecAt self'.models 3 = .error Fault.out_of_range ∧
      (∃ e, processWithLock (demoWorld demoPaths (terminatedText ["a", "b", "c"])
          { rows := 4, cols := 1, ptr := [0, 1, 2, 3] }) self' [3]
          [{ points := some [0], rois := { x := 0, y := 0, width := 1, height := 1 },
             annotations := [] }] = .error e) :=
  ⟨_, rfl,
    fun idx query indices dists k checks found h =>
      knnSearchSpec_inRange sqDist idx query indices dists k checks found h,
    rfl, rfl, rfl, ⟨Fault.out_of_range, rfl⟩⟩

/-- C7, amended. After a successful initialize that left at least as many labels as the
matrix has rows, every index returned by a search that only returns row indices of the
matrix is a valid index into the label list, and the lookup of its label succeeds. -/
theorem search_indices_within_labels {F Img : Type} [Zero F] (w : World F Img)
    (hcontract : SearchInRange w) (ctx : AnnotatorContext)
    (self self' : DeCafClassifier F Img)
    (hok : initialise w ctx self = .ok (TyErrorId.UIMA_ERR_NONE, self'))
    (hrows : self'.data.rows ≤ self'.models.length)
    (model : Model F) (found : List Int × List F)
    (hfound : nearestKSearch w self'.index model self'.k [] [] = .ok found) :
    ∀ i ∈ found.1, 0 ≤ i ∧ i < (self'.models.length : Int) ∧
      ∃ m, vecAt self'.models i = .ok m := by
  obtain ⟨matrix, added, _, _, _, hdata, hindex, _⟩ := initialise_ok_inv w ctx self self' hok
  intro i hi
  have hrange : 0 ≤ i ∧ i < (self'.data.rows : Int) := by
    unfold nearestKSearch at hfound
    by_cases hk : self'.k < 0
    · simp [resize, hk] at hfound
    · simp only [resize, hk, if_false, hindex] at hfound
      have := hcontract _ _ _ _ _ _ _ hfound i hi
      rw [hdata]
      exact this
  have hlt : i.toNat < self'.models.length := by omega
  exact ⟨hrange.1, by omega, _, vecAt_ok self'.models i hrange.1 hlt⟩

/-- C7 amended, at three labels and three rows, k = 2 and the query [1]. -/
theorem search_indices_within_labels_witness :
    (3 : Nat) ≤ ([("a", []), ("b", []), ("c", [])] : List (Model Int)).length ∧
    ∀ i ∈ ([1, 0] : List Int), 0 ≤ i ∧
      i < ((([("a", []), ("b", []), ("c", [])] : List (Model Int)).length : Nat) : Int) ∧
      ∃ m, vecAt ([("a", []), ("b", []), ("c", [])] : List (Model Int)) i = .ok m :=
  ⟨by decide, search_indices_within_labels
    (demoWorld demoPaths (terminatedText ["a", "b", "c"])
      { rows := 3, cols := 1, ptr := [0, 1, 2] })
    (fun idx query indices dists k checks found h =>
      knnSearchSpec_inRange sqDist idx query indices dists k checks found h)
    (demoCtx 2) freshAnnotator
    { packagePath := "pkg/"
      h5_file := "data.h5"
      list_file := "list.txt"
      kdtree_file := "kdtree.idx"
      models := [("a", []), ("b", []), ("c", [])]
      data := { rows := 3, cols := 1, data := [0, 1, 2] }
      index := some { features := { rows := 3, cols := 1, data := [0, 1, 2] }
                      params := IndexParams.KDTreeIndexParams 4
                      distType := flann_distance_t.FLANN_DIST_L2 }
      k := 2
      color := [] }
    rfl (by decide) ("cluster0", [1]) ([1, 0], [0, 1]) rfl⟩

/-- C10. Whenever processWithLock returns, it returns UIMA_ERR_NONE, the clusters are as
many as before, every cluster without points is unchanged, every cluster with points
has exactly one detection appended to its annotations, whose source is
"DeCafClassifier", and the detections created are as many as the clusters with points;
and processWithLock does return when every subscript of the loop body is inside its
vector. -/
theorem processWithLock_one_detection_each {F Img : Type} [Zero F] (w : World F Img)
    (self : DeCafClassifier F Img) (casColor : Img) (clusters : List (Cluster F)) :
    (∀ r, processWithLock w self casColor clusters = .ok r →
      r.result = TyErrorId.UIMA_ERR_NONE ∧
      r.clusters.length = clusters.length ∧
      r.created.length = (clusters.filter (fun c => c.points.isSome)).length ∧
      ∀ (j : Nat) (c c' : Cluster F), clusters[j]? = some c → r.clusters[j]? = some c' →
        (c.points.isSome = false → c' = c) ∧
        (c.points.isSome = true →
          ∃ d, d.source = "DeCafClassifier" ∧ d ∈ r.created ∧
            c'.annotations = c.annotations ++ [d] ∧ c'.points = c.points ∧
            c'.rois = c.rois)) ∧
    (LookupsInRange w self → ∃ r, processWithLock w self casColor clusters = .ok r) := by
  constructor
  · intro r hr
    unfold processWithLock at hr
    cases hloop : processLoop w { self with color := casColor } 0 clusters casColor with
    | error e => simp [hloop] at hr
    | ok r2 =>
      simp only [hloop] at hr
      injection hr with hr
      subst hr
      obtain ⟨hlen, hcount, hall⟩ := processLoop_ok_inv w { self with color := casColor }
        clusters 0 casColor r2 hloop
      refine ⟨rfl, hlen, hcount, fun j c c' hc hc' => ⟨(hall j c c' hc hc').1, fun hp => ?_⟩⟩
      obtain ⟨img, found, i0, m, d0, _, _, _, _, hc2, hmem⟩ := (hall j c c' hc hc').2 hp
      exact ⟨_, rfl, hmem, by rw [hc2], by rw [hc2], by rw [hc2]⟩
  · intro hL
    obtain ⟨r2, hr2⟩ := processLoop_total w { self with color := casColor } hL clusters 0
      casColor
    exact ⟨{ result := TyErrorId.UIMA_ERR_NONE
             self := { self with color := r2.2.1 }
             clusters := r2.1
             created := r2.2.2 }, by simp only [processWithLock, hr2]⟩

/-- C10, at three clusters of which the second has no points. -/
theorem processWithLock_one_detection_each_witness :
    (∀ r, processWithLock fruitWorld fruitAnnotator [19] fruitClusters = .ok r →
      r.result = TyErrorId.UIMA_ERR_NONE ∧
      r.clusters.length = fruitClusters.length ∧
      r.created.length = (fruitClusters.filter (fun c => c.points.isSome)).length ∧
      ∀ (j : Nat) (c c' : Cluster Int), fruitClusters[j]? = some c →
        r.clusters[j]? = some c' →
        (c.points.isSome = false → c' = c) ∧
        (c.points.isSome = true →
          ∃ d, d.source = "DeCafClassifier" ∧ d ∈ r.created ∧
            c'.annotations = c.annotations ++ [d] ∧ c'.points = c.points ∧
            c'.rois = c.rois)) ∧
    (∃ r, processWithLock fruitWorld fruitAnnotator [19] fruitClusters = .ok r) :=
  ⟨(processWithLock_one_detection_each fruitWorld fruitAnnotator [19] fruitClusters).1,
   (processWithLock_one_detection_each fruitWorld fruitAnnotator [19] fruitClusters).2
     (lookupsInRange_of_spec fruitWorld sqDist rfl fruitAnnotator _ rfl (fun _ => rfl)
       (by decide) (by decide) (by decide))⟩

end DeCaf
